import Mathlib

/-!
Shallow embedding of the rollup driver event loop
(`components/node/rollup/driver/state.go`) and of the rollup
configuration validation pinned by `components/node/rollup/types_test.go`.

Hashes, block references and addresses are modelled as `Nat` (0 plays the
role of the zero hash / zero address).  Go `uint64` arithmetic is modelled
as `Nat` arithmetic reduced modulo `2^64` exactly where the Go code can
overflow.  Channels owned by the loop are modelled by their observable
contents: the capacity-1 step-request channel by a `Bool` occupancy flag,
the delayed-step timer by an `Option Nat` holding the scheduled delay, and
the backup sync client's bounded request channel by a `List Nat` together
with its capacity.
-/

namespace Driver

/-- `2^64`, the modulus of Go `uint64` arithmetic. -/
def u64 : Nat := 2 ^ 64

/-- Go `uint64` subtraction `a - b`: wraps modulo `2^64`. -/
def u64sub (a b : Nat) : Nat := (a % u64 + u64 - b % u64) % u64

/-- Result classification of `derivation.Step`, as the driver distinguishes
it in the event loop: `io.EOF`, `derive.ErrReset`, `derive.ErrTemporary`,
`derive.ErrCritical`, `derive.NotEnoughData`, any other non-nil error, or
success (`nil`). -/
inductive StepResult where
  | ok
  | eof
  | resetErr
  | tempErr
  | criticalErr
  | notEnoughData
  | otherErr
deriving DecidableEq, Repr

/-- Outcome of `proposer.RunNextProposerAction`: a critical error, or a
successful run optionally carrying a freshly built payload (payloads are
identified by a `Nat`). -/
inductive ProposerActionResult where
  | criticalErr
  | ok (payload : Option Nat)
deriving DecidableEq, Repr

/-- The mutable state owned by the driver event loop, together with the
observation counters for the side effects the loop performs (pipeline
resets, metric records, proposer-action plans, publishes).  `stepReqPending`
is the occupancy of the capacity-1 `stepReqCh`; `delayedStep` is `none` when
the `delayedStepReq` timer channel is nil and `some d` when a re-attempt is
scheduled after delay `d`. -/
structure LoopState where
  proposerStopped : Bool
  unsafeHead : Nat
  stepAttempts : Nat
  stepReqPending : Bool
  delayedStep : Option Nat
  derivationIdle : Bool
  l1Head : Nat
  resets : Nat
  pipelineResets : Nat
  publishErrors : Nat
  published : Nat
  plans : Nat
deriving DecidableEq, Repr

/-- Modelled from the spec: the exponential backoff strategy
(`utils/service/backoff`, not part of the sources at hand) starts around
50 ms, doubles per failure and caps at about 10 s.  The driver only
forwards `Exponential(stepAttempts)` to the timer, so the exact constants
are irrelevant to every claim below. -/
def Exponential (attempts : Nat) : Nat := min (50 * 2 ^ attempts) 10000

/-- The `step` closure of `eventLoop`: a non-blocking send on the
capacity-1 `stepReqCh`; if the channel is already full the send is
dropped. -/
def step (s : LoopState) : LoopState := { s with stepReqPending := true }

/-- The `reqStep` closure of `eventLoop`: if `stepAttempts > 0` and no
delayed step is scheduled, schedule one after `Exponential stepAttempts`;
if one is already scheduled, do nothing; otherwise request an immediate
step. -/
def reqStep (s : LoopState) : LoopState :=
  if s.stepAttempts > 0 then
    match s.delayedStep with
    | none => { s with delayedStep := some (Exponential s.stepAttempts) }
    | some _ => s
  else step s

/-- The `case <-delayedStepReq` arm: clear the timer and convert the
delayed request into an immediate one. -/
def handleDelayedStepFire (s : LoopState) : LoopState :=
  step { s with delayedStep := none }

/-- Whether the loop keeps running after handling an event, carrying the
resulting state.  `terminated` corresponds to the `return` statements of
`eventLoop`. -/
inductive LoopOutcome where
  | next (s : LoopState)
  | terminated (s : LoopState)
deriving DecidableEq, Repr

/-- The `case <-stepReqCh` arm of `eventLoop`.  Receiving empties the
channel; the loop marks derivation busy, runs `derivation.Step` (whose
result `r` is supplied by the environment), counts the attempt, and then
classifies the result exactly as the Go `if/else if` chain does. -/
def handleStepReq (s0 : LoopState) (r : StepResult) : LoopOutcome :=
  let s1 := { s0 with stepReqPending := false, derivationIdle := false }
  let s := { s1 with stepAttempts := s1.stepAttempts + 1 }
  match r with
  | .eof => .next { s with stepAttempts := 0, derivationIdle := true }
  | .resetErr =>
      .next { s with resets := s.resets + 1, pipelineResets := s.pipelineResets + 1 }
  | .tempErr => .next (reqStep s)
  | .criticalErr => .terminated s
  | .notEnoughData => .next (reqStep { s with stepAttempts := 0 })
  | .otherErr => .next (reqStep s)
  | .ok => .next (reqStep { s with stepAttempts := 0 })

/-- The `case respCh := <-s.forceReset` arm: reset the pipeline, record the
metric, and acknowledge the caller (the acknowledgement carries no data). -/
def handleForceReset (s : LoopState) : LoopState :=
  { s with resets := s.resets + 1, pipelineResets := s.pipelineResets + 1 }

/-- The `case <-proposerCh` arm: run the next proposer action.  A critical
error terminates the loop.  Otherwise, when a payload was produced and a
network is configured, the payload is published best-effort (`publishOk`
tells whether `PublishL2Payload` succeeded); then the next proposer action
is planned. -/
def handleProposerTick (s : LoopState) (networkPresent : Bool)
    (r : ProposerActionResult) (publishOk : Bool) : LoopOutcome :=
  match r with
  | .criticalErr => .terminated s
  | .ok payload =>
      let s :=
        if networkPresent && payload.isSome then
          if publishOk then { s with published := s.published + 1 }
          else { s with publishErrors := s.publishErrors + 1 }
        else s
      .next { s with plans := s.plans + 1 }

/-- The reply the `case resp := <-s.startProposer` arm sends on the
caller's error channel: an error value, or success by closing the
channel. -/
inductive StartReply where
  | alreadyRunning
  | hashMismatch
  | started
deriving DecidableEq, Repr

/-- The `case resp := <-s.startProposer` arm: reject when the proposer is
not stopped, reject when the supplied hash differs from the current unsafe
head hash, otherwise clear `ProposerStopped`, signal success and re-plan
the proposer action. -/
def handleStartProposer (s : LoopState) (h : Nat) : StartReply × LoopState :=
  if !s.proposerStopped then (.alreadyRunning, s)
  else if s.unsafeHead ≠ h then (.hashMismatch, s)
  else (.started, { s with proposerStopped := false, plans := s.plans + 1 })

/-- The reply of the `case respCh := <-s.stopProposer` arm: an error when
the proposer is already stopped, otherwise the current unsafe head hash. -/
inductive StopReply where
  | notRunning
  | stopped (hash : Nat)
deriving DecidableEq, Repr

/-- The `case respCh := <-s.stopProposer` arm. -/
def handleStopProposer (s : LoopState) : StopReply × LoopState :=
  if s.proposerStopped then (.notRunning, s)
  else (.stopped s.unsafeHead, { s with proposerStopped := true })

/-- What `Driver.StartProposer` returns to its caller: the disabled error
(before any message reaches the loop), or the loop's reply. -/
inductive StartAPIReply where
  | disabled
  | reply (r : StartReply)
deriving DecidableEq, Repr

/-- `Driver.StartProposer`: returns the disabled error without entering
the loop when `ProposerEnabled` is false; otherwise the request is handed
to the event loop and its reply returned. -/
def StartProposer (proposerEnabled : Bool) (s : LoopState) (h : Nat) :
    StartAPIReply × LoopState :=
  if !proposerEnabled then (.disabled, s)
  else
    let (r, s2) := handleStartProposer s h
    (.reply r, s2)

/-- What `Driver.StopProposer` returns to its caller. -/
inductive StopAPIReply where
  | disabled
  | reply (r : StopReply)
deriving DecidableEq, Repr

/-- `Driver.StopProposer`: returns the disabled error without entering the
loop when `ProposerEnabled` is false; otherwise the request is handed to
the event loop and its reply returned. -/
def StopProposer (proposerEnabled : Bool) (s : LoopState) :
    StopAPIReply × LoopState :=
  if !proposerEnabled then (.disabled, s)
  else
    let (r, s2) := handleStopProposer s
    (.reply r, s2)

/-- `case newL1Head := <-s.l1HeadSig`: update the tracked L1 head and
request a step. -/
def handleL1Head (s : LoopState) (ref : Nat) : LoopState :=
  reqStep { s with l1Head := ref }

/-- Run the `case <-stepReqCh` arm over a list of scripted step results,
stopping if the loop terminates. -/
def runSteps (s : LoopState) : List StepResult → LoopOutcome
  | [] => .next s
  | r :: rs =>
      match handleStepReq s r with
      | .next s2 => runSteps s2 rs
      | .terminated s2 => .terminated s2

/-- The body of the fetch loop of `checkForGapInUnsafeQueue`:
`for blockNumber := start; blockNumber <= end; blockNumber++` performs a
non-blocking send of `blockNumber` into the bounded `FetchUnsafeBlock`
channel (capacity `cap`, current contents `q`) and returns at the first
full-channel rejection.  `blockNumber` is a `uint64`, so the increment
wraps modulo `2^64`: when `fin = 2^64 - 1` the loop condition stays true
forever and only the full channel stops the loop (which is also what
bounds this recursion: every recursive call grows the channel). -/
def fetchLoop (cap : Nat) (q : List Nat) (blockNumber fin : Nat) : List Nat :=
  if blockNumber ≤ fin then
    if h : q.length < cap then
      fetchLoop cap (q ++ [blockNumber]) ((blockNumber + 1) % u64) fin
    else q
  else q
termination_by cap - q.length
decreasing_by simp; omega

/-- The expected L2 block number computed by `checkForGapInUnsafeQueue`:
Go `uint64` wall clock minus genesis timestamp (wrapping), divided by the
block time. -/
def expectedL2Block (wallClock genesisTimestamp blockTime : Nat) : Nat :=
  u64sub wallClock genesisTimestamp / blockTime

/-- `Driver.checkForGapInUnsafeQueue`: computes the expected L2 block
number from the wall clock, queries `GetUnsafeQueueGap` (supplied by the
environment as `getGap`), and, when `end - start > 0` in `uint64`
arithmetic, runs the fetch loop over `[start, end]`.  The value returned is
the final contents of the sync client's request channel. -/
def checkForGapInUnsafeQueue (wallClock genesisTimestamp blockTime : Nat)
    (getGap : Nat → Nat × Nat) (cap : Nat) (q : List Nat) : List Nat :=
  let expected := expectedL2Block wallClock genesisTimestamp blockTime
  let startEnd := getGap expected
  let size := u64sub startEnd.2 startEnd.1
  if size > 0 then fetchLoop cap q startEnd.1 startEnd.2 else q

/-- An event received by the top-level select of `eventLoop`, together with
the environment's choices (step results, proposer action results, publish
outcomes) that the corresponding Go interface call would return. -/
inductive Event where
  | proposerTick (networkPresent : Bool) (r : ProposerActionResult) (publishOk : Bool)
  | stepReq (r : StepResult)
  | delayedFire
  | forceReset
  | startProposerReq (h : Nat)
  | stopProposerReq
  | l1HeadSig (ref : Nat)
deriving DecidableEq, Repr

/-- Dispatch of one received event to the matching select arm. -/
def handleEvent (s : LoopState) : Event → LoopOutcome
  | .proposerTick np r pub => handleProposerTick s np r pub
  | .stepReq r => handleStepReq s r
  | .delayedFire => .next (handleDelayedStepFire s)
  | .forceReset => .next (handleForceReset s)
  | .startProposerReq h => .next (handleStartProposer s h).2
  | .stopProposerReq => .next (handleStopProposer s).2
  | .l1HeadSig ref => .next (handleL1Head s ref)

/-- Run the event loop over a list of events; once an arm returns
(`terminated`), no further event is processed. -/
def run (s : LoopState) : List Event → LoopOutcome
  | [] => .next s
  | e :: es =>
      match handleEvent s e with
      | .next s2 => run s2 es
      | .terminated s2 => .terminated s2

/-- The state carried by a loop outcome. -/
def LoopOutcome.state : LoopOutcome → LoopState
  | .next s => s
  | .terminated s => s

/-- Whether the loop keeps running. -/
def LoopOutcome.isNext : LoopOutcome → Bool
  | .next _ => true
  | .terminated _ => false

/-- A quiescent sample loop state (proposer stopped, no pending requests),
used to instantiate the theorems below at concrete inputs. -/
def sampleState : LoopState where
  proposerStopped := true
  unsafeHead := 5
  stepAttempts := 0
  stepReqPending := false
  delayedStep := none
  derivationIdle := false
  l1Head := 0
  resets := 0
  pipelineResets := 0
  publishErrors := 0
  published := 0
  plans := 0

/-- A sample loop state with a step request pending (as right before the
`case <-stepReqCh` arm runs) and a running proposer. -/
def busyState : LoopState where
  proposerStopped := false
  unsafeHead := 9
  stepAttempts := 0
  stepReqPending := true
  delayedStep := none
  derivationIdle := false
  l1Head := 3
  resets := 0
  pipelineResets := 0
  publishErrors := 0
  published := 0
  plans := 0

/-- `eth.SystemConfig` as far as `Config.Check` consults it; addresses and
32-byte words are `Nat`s with 0 standing for the zero value. -/
structure SystemConfig where
  batcherAddr : Nat
  overhead : Nat
  scalar : Nat
  gasLimit : Nat
deriving DecidableEq, Repr

/-- `rollup.Genesis` as far as `Config.Check` consults it. -/
structure Genesis where
  l1Hash : Nat
  l2Hash : Nat
  l2Time : Nat
  systemConfig : SystemConfig
deriving DecidableEq, Repr

/-- The fields of `rollup.Config` consulted by `Config.Check`.  The chain
IDs are `*big.Int` in Go, hence `Option Int` here with `none` for a nil
pointer. -/
structure RollupConfig where
  genesis : Genesis
  blockTime : Nat
  proposerWindowSize : Nat
  channelTimeout : Nat
  l1ChainID : Option Int
  l2ChainID : Option Int
  batchInboxAddress : Nat
  depositContractAddress : Nat
deriving DecidableEq, Repr

/-- The sentinel error values `Config.Check` may return; Go compares them
by identity (`assert.Same` in `TestConfig_Check`), which the constructors
of an inductive type model exactly. -/
inductive CheckErr where
  | BlockTimeZero
  | MissingChannelTimeout
  | InvalidProposerWindowSize
  | MissingGenesisL1Hash
  | MissingGenesisL2Hash
  | GenesisHashesSame
  | MissingGenesisL2Time
  | MissingBatcherAddr
  | MissingOverhead
  | MissingScalar
  | MissingGasLimit
  | MissingBatchInboxAddress
  | MissingDepositContractAddress
  | MissingL1ChainID
  | MissingL2ChainID
  | ChainIDsSame
  | L1ChainIDNotPositive
  | L2ChainIDNotPositive
deriving DecidableEq, Repr

/-- Modelled from the spec: `rollup.Config.Check` itself is not among the
sources at hand (only its test `TestConfig_Check` is), so the validation is
reconstructed from the spec's list of distinct error kinds and the
behaviour the test pins: each missing/invalid field yields its own
sentinel, a proposer window size of at most 1 is invalid, a nil chain ID
yields the missing-chain-ID error, equal hashes or chain IDs yield the
sameness errors, and non-positive chain IDs yield the not-positive
errors. -/
def Check (cfg : RollupConfig) : Option CheckErr :=
  if cfg.blockTime = 0 then some .BlockTimeZero
  else if cfg.channelTimeout = 0 then some .MissingChannelTimeout
  else if cfg.proposerWindowSize ≤ 1 then some .InvalidProposerWindowSize
  else if cfg.genesis.l1Hash = 0 then some .MissingGenesisL1Hash
  else if cfg.genesis.l2Hash = 0 then some .MissingGenesisL2Hash
  else if cfg.genesis.l1Hash = cfg.genesis.l2Hash then some .GenesisHashesSame
  else if cfg.genesis.l2Time = 0 then some .MissingGenesisL2Time
  else if cfg.genesis.systemConfig.batcherAddr = 0 then some .MissingBatcherAddr
  else if cfg.genesis.systemConfig.overhead = 0 then some .MissingOverhead
  else if cfg.genesis.systemConfig.scalar = 0 then some .MissingScalar
  else if cfg.genesis.systemConfig.gasLimit = 0 then some .MissingGasLimit
  else if cfg.batchInboxAddress = 0 then some .MissingBatchInboxAddress
  else if cfg.depositContractAddress = 0 then some .MissingDepositContractAddress
  else
    match cfg.l1ChainID, cfg.l2ChainID with
    | none, _ => some .MissingL1ChainID
    | some _, none => some .MissingL2ChainID
    | some a, some b =>
        if a = b then some .ChainIDsSame
        else if a ≤ 0 then some .L1ChainIDNotPositive
        else if b ≤ 0 then some .L2ChainIDNotPositive
        else none

/-- A chain ID is present and positive. -/
def posChainID : Option Int → Prop
  | none => False
  | some a => 0 < a

/-- A configuration passing every check: the conjunction of the pass
conditions of all validation rules. -/
def Wf (cfg : RollupConfig) : Prop :=
  cfg.blockTime ≠ 0 ∧
  cfg.channelTimeout ≠ 0 ∧
  1 < cfg.proposerWindowSize ∧
  cfg.genesis.l1Hash ≠ 0 ∧
  cfg.genesis.l2Hash ≠ 0 ∧
  cfg.genesis.l1Hash ≠ cfg.genesis.l2Hash ∧
  cfg.genesis.l2Time ≠ 0 ∧
  cfg.genesis.systemConfig.batcherAddr ≠ 0 ∧
  cfg.genesis.systemConfig.overhead ≠ 0 ∧
  cfg.genesis.systemConfig.scalar ≠ 0 ∧
  cfg.genesis.systemConfig.gasLimit ≠ 0 ∧
  cfg.batchInboxAddress ≠ 0 ∧
  cfg.depositContractAddress ≠ 0 ∧
  posChainID cfg.l1ChainID ∧
  posChainID cfg.l2ChainID ∧
  cfg.l1ChainID ≠ cfg.l2ChainID

/-- A concrete valid configuration, with the same shape as the
`randConfig` fixture of `types_test.go`. -/
def sampleConfig : RollupConfig where
  genesis :=
    { l1Hash := 11
      l2Hash := 22
      l2Time := 77
      systemConfig :=
        { batcherAddr := 1, overhead := 2, scalar := 3, gasLimit := 1234567 } }
  blockTime := 2
  proposerWindowSize := 2
  channelTimeout := 123
  l1ChainID := some 900
  l2ChainID := some 901
  batchInboxAddress := 4
  depositContractAddress := 5

end Driver

namespace Driver

/-- With the proposer already stopped, only results with all antecedents
satisfiable are listed; helper over traces of benign step results:
running only successes, `EOF` and `NotEnoughData` from a state with no
failed attempts and no delayed step keeps the loop running with
`stepAttempts = 0` and no delayed step scheduled. -/
theorem runSteps_invariant (rs : List StepResult)
    (hall : ∀ r ∈ rs, r = StepResult.ok ∨ r = .eof ∨ r = .notEnoughData) :
    ∀ s : LoopState, s.stepAttempts = 0 → s.delayedStep = none →
      (run s (rs.map Event.stepReq)).isNext = true ∧
      (run s (rs.map Event.stepReq)).state.stepAttempts = 0 ∧
      (run s (rs.map Event.stepReq)).state.delayedStep = none := by
  revert hall
  induction rs with
  | nil => exact fun _ s h0 hd => ⟨rfl, h0, hd⟩
  | cons r rs ih =>
      intro hall s h0 hd
      have hrs : ∀ x ∈ rs, x = StepResult.ok ∨ x = .eof ∨ x = .notEnoughData :=
        fun x hx => hall x (List.mem_cons_of_mem _ hx)
      rcases hall r (List.mem_cons_self r rs) with h | h | h
      · subst h
        exact ih hrs
          { s with stepReqPending := true, derivationIdle := false, stepAttempts := 0 } rfl hd
      · subst h
        exact ih hrs
          { s with stepReqPending := false, derivationIdle := true, stepAttempts := 0 } rfl hd
      · subst h
        exact ih hrs
          { s with stepReqPending := true, derivationIdle := false, stepAttempts := 0 } rfl hd

end Driver

namespace Driver

/-- C1: with the proposer enabled, a `StartProposer(h)` request handled by
the event loop succeeds if and only if `ProposerStopped` was true and `h`
equals the current unsafe head hash, in which case `ProposerStopped` is
cleared and the proposer action re-planned; if the proposer was running
the reply is the already-running error and the state is unchanged; if the
hash differs the reply is the hash-mismatch error and the state is
unchanged; with the proposer disabled the reply is the disabled error and
the loop is not entered. -/
theorem startProposer_spec (s : LoopState) (h : Nat) :
    ((StartProposer true s h).1 = .reply .started ↔
      s.proposerStopped = true ∧ h = s.unsafeHead) ∧
    (s.proposerStopped = true → h = s.unsafeHead →
      StartProposer true s h =
        (.reply .started, { s with proposerStopped := false, plans := s.plans + 1 })) ∧
    (s.proposerStopped = false →
      StartProposer true s h = (.reply .alreadyRunning, s)) ∧
    (s.proposerStopped = true → h ≠ s.unsafeHead →
      StartProposer true s h = (.reply .hashMismatch, s)) ∧
    StartProposer false s h = (.disabled, s) := by
  cases hps : s.proposerStopped <;> by_cases he : s.unsafeHead = h <;>
    simp_all [StartProposer, handleStartProposer]
  omega

/-- C1 witness: starting at the matching unsafe head hash from a stopped
proposer succeeds and clears `ProposerStopped`. -/
theorem startProposer_spec_witness :
    StartProposer true sampleState 5 =
      (.reply .started, { sampleState with proposerStopped := false, plans := 1 }) :=
  (startProposer_spec sampleState 5).2.1 rfl rfl

/-- C2 counterexample: from a state with a pending step request and no
failed attempts, a `Step` returning `ResetError` leads to a successful
`Reset` (the reset counter increments) after which `stepAttempts` is 1,
not 0, and no next step has been requested (the step-request channel is
empty and no delayed step is scheduled), refuting the claim that a
successful reset zeroes `stepAttempts` and re-requests a step. -/
theorem reset_rearm_counterexample :
    (handleStepReq busyState .resetErr).state.resets = busyState.resets + 1 ∧
    ¬(handleStepReq busyState .resetErr).state.stepAttempts = 0 ∧
    (handleStepReq busyState .resetErr).state.stepReqPending = false ∧
    (handleStepReq busyState .resetErr).state.delayedStep = none ∧
    (handleForceReset sampleState).resets = sampleState.resets + 1 ∧
    (handleForceReset sampleState).stepReqPending = false ∧
    (handleForceReset sampleState).delayedStep = none := by
  decide

/-- C2 amended: after a successful `Reset` triggered by a `Step` returning
`ResetError`, the pipeline reset and its metric are recorded but
`stepAttempts` equals its prior value plus one (the attempt is counted
before classification and never zeroed) and no next derivation step is
re-requested: the step-request channel is left empty and the delayed-step
timer untouched.  A force-reset likewise resets the pipeline without
touching `stepAttempts` and without requesting a step. -/
theorem reset_no_rearm (s : LoopState) :
    handleStepReq s .resetErr =
      .next { s with stepReqPending := false, derivationIdle := false,
                     stepAttempts := s.stepAttempts + 1,
                     resets := s.resets + 1, pipelineResets := s.pipelineResets + 1 } ∧
    handleForceReset s =
      { s with resets := s.resets + 1, pipelineResets := s.pipelineResets + 1 } :=
  ⟨rfl, rfl⟩

/-- C4: a step returning `EOF` zeroes `stepAttempts`, marks derivation
idle and requests no further step; a step returning `NotEnoughData`
zeroes `stepAttempts` and immediately requests another step; and a trace
of only successes, `EOF` and `NotEnoughData` never schedules a backoff
delay: along every such trace the loop keeps running with
`stepAttempts = 0` and no delayed step pending. -/
theorem stepTrace_no_backoff (s : LoopState) (rs : List StepResult)
    (hall : ∀ r ∈ rs, r = StepResult.ok ∨ r = .eof ∨ r = .notEnoughData)
    (h0 : s.stepAttempts = 0) (hd : s.delayedStep = none) :
    (handleStepReq s .eof =
      .next { s with stepReqPending := false, stepAttempts := 0, derivationIdle := true }) ∧
    (handleStepReq s .notEnoughData =
      .next { s with stepReqPending := true, stepAttempts := 0, derivationIdle := false }) ∧
    ∀ p q, rs = p ++ q →
      (run s (p.map Event.stepReq)).isNext = true ∧
      (run s (p.map Event.stepReq)).state.stepAttempts = 0 ∧
      (run s (p.map Event.stepReq)).state.delayedStep = none := by
  refine ⟨rfl, rfl, ?_⟩
  intro p q hpq
  subst hpq
  exact runSteps_invariant p (fun x hx => hall x (List.mem_append_left q hx)) s h0 hd

/-- C4 witness: the scripted trace success, `NotEnoughData`, `EOF` keeps
the loop running with no failed attempts and no delayed step. -/
theorem stepTrace_no_backoff_witness :
    (run sampleState ([StepResult.ok, .notEnoughData, .eof].map Event.stepReq)).isNext = true ∧
    (run sampleState
      ([StepResult.ok, .notEnoughData, .eof].map Event.stepReq)).state.stepAttempts = 0 ∧
    (run sampleState
      ([StepResult.ok, .notEnoughData, .eof].map Event.stepReq)).state.delayedStep = none :=
  (stepTrace_no_backoff sampleState [.ok, .notEnoughData, .eof]
    (by decide) rfl rfl).2.2 [.ok, .notEnoughData, .eof] [] rfl

/-- C5: an immediate step request is a non-blocking send on the capacity-1
step-request channel, dropped (a no-op) when the channel is already full;
a backoff-aware request with `stepAttempts = 0` is exactly an immediate
request; with `stepAttempts > 0` and no delayed step pending it schedules
exactly one delayed step after `Exponential stepAttempts`; with one
already pending it does nothing (so at most one delayed step is ever
pending); and when the delayed step fires the pending timer is cleared and
converted into an immediate request. -/
theorem stepRequest_discipline (s : LoopState) (d : Nat) :
    step s = { s with stepReqPending := true } ∧
    (s.stepReqPending = true → step s = s) ∧
    (s.stepAttempts = 0 → reqStep s = step s) ∧
    (0 < s.stepAttempts → s.delayedStep = none →
      reqStep s = { s with delayedStep := some (Exponential s.stepAttempts) }) ∧
    (0 < s.stepAttempts → s.delayedStep = some d → reqStep s = s) ∧
    handleDelayedStepFire s = { s with delayedStep := none, stepReqPending := true } := by
  refine ⟨rfl, ?_, ?_, ?_, ?_, rfl⟩
  · intro hp; cases s; simp_all [step]
  · intro h0; simp [reqStep, h0]
  · intro ha hd; simp [reqStep, ha, hd]
  · intro ha hd; simp [reqStep, ha, hd]

/-- C5 witness: at `stepAttempts = 0` the backoff-aware request is the
immediate one; at `stepAttempts = 2` with no delayed step pending it
schedules one after `Exponential 2`; with one pending it is a no-op. -/
theorem stepRequest_discipline_witness :
    reqStep sampleState = step sampleState ∧
    reqStep { sampleState with stepAttempts := 2 } =
      { sampleState with stepAttempts := 2, delayedStep := some (Exponential 2) } ∧
    reqStep { sampleState with stepAttempts := 2, delayedStep := some 100 } =
      { sampleState with stepAttempts := 2, delayedStep := some 100 } :=
  ⟨(stepRequest_discipline sampleState 0).2.2.1 rfl,
   (stepRequest_discipline { sampleState with stepAttempts := 2 } 0).2.2.2.1
     (by decide) rfl,
   (stepRequest_discipline { sampleState with stepAttempts := 2, delayedStep := some 100 }
     100).2.2.2.2.1 (by decide) rfl⟩

/-- C6: with the proposer enabled, a `StopProposer` request handled by the
event loop fails with the not-running error when `ProposerStopped` is
already true, leaving the state unchanged; otherwise it sets
`ProposerStopped` and returns the current unsafe head hash; with the
proposer disabled it returns the disabled error without entering the
loop. -/
theorem stopProposer_spec (s : LoopState) :
    (s.proposerStopped = true → StopProposer true s = (.reply .notRunning, s)) ∧
    (s.proposerStopped = false →
      StopProposer true s =
        (.reply (.stopped s.unsafeHead), { s with proposerStopped := true })) ∧
    StopProposer false s = (.disabled, s) := by
  refine ⟨?_, ?_, rfl⟩ <;> intro hps <;> simp [StopProposer, handleStopProposer, hps]

/-- C6 witness: stopping a running proposer returns the unsafe head hash
and sets `ProposerStopped`. -/
theorem stopProposer_spec_witness :
    StopProposer true { sampleState with proposerStopped := false } =
      (.reply (.stopped 5),
       { sampleState with proposerStopped := true }) :=
  (stopProposer_spec { sampleState with proposerStopped := false }).2.1 rfl

/-- C7: when `RunNextProposerAction` returns a critical error the event
loop terminates at once with the state untouched: no pipeline reset, no
publish, no re-planning of the proposer action, and none of the remaining
events is processed. -/
theorem proposerCritical_terminates (s : LoopState) (np pub : Bool) (es : List Event) :
    run s (Event.proposerTick np .criticalErr pub :: es) = .terminated s := by
  rfl

/-- C8: when the proposer action produced a payload and publishing it
fails, the loop records the publishing-error metric and re-plans the next
proposer action but changes nothing else and keeps running:
`ProposerStopped`, the unsafe head, the reset counters, the L1 state and
`stepAttempts` are untouched. -/
theorem publishError_frame (s : LoopState) (p : Nat) :
    handleProposerTick s true (.ok (some p)) false =
      .next { s with publishErrors := s.publishErrors + 1, plans := s.plans + 1 } ∧
    (handleProposerTick s true (.ok (some p)) false).isNext = true ∧
    (handleProposerTick s true (.ok (some p)) false).state.proposerStopped
      = s.proposerStopped ∧
    (handleProposerTick s true (.ok (some p)) false).state.unsafeHead = s.unsafeHead ∧
    (handleProposerTick s true (.ok (some p)) false).state.resets = s.resets ∧
    (handleProposerTick s true (.ok (some p)) false).state.l1Head = s.l1Head ∧
    (handleProposerTick s true (.ok (some p)) false).state.stepAttempts
      = s.stepAttempts :=
  ⟨rfl, rfl, rfl, rfl, rfl, rfl, rfl⟩

end Driver

namespace Driver

/-- `uint64` subtraction does not wrap when the subtrahend is no larger. -/
theorem u64sub_of_le (a b : Nat) (hba : b ≤ a) (ha : a < u64) : u64sub a b = a - b := by
  have hu : u64 = 18446744073709551616 := by norm_num [u64]
  simp only [u64sub, hu] at *
  omega

/-- `uint64` subtraction wraps by `2^64` when the subtrahend is larger. -/
theorem u64sub_wrap (a b : Nat) (hab : a < b) (hb : b < u64) : u64sub a b = a + u64 - b := by
  have hu : u64 = 18446744073709551616 := by norm_num [u64]
  simp only [u64sub, hu] at *
  omega

/-- When the bound `fin` is below `2^64 - 1` the `uint64` loop counter
never wraps while the loop condition holds: the fetch loop appends the
block numbers from `i` on, in increasing order, until either `fin` is
passed or the channel is full — exactly
`min (fin + 1 - i) (cap - q.length)` consecutive numbers. -/
theorem fetchLoop_eq (cap : Nat) :
    ∀ (n : Nat) (q : List Nat) (i fin : Nat),
      fin + 1 - i = n → fin + 1 < u64 → q.length ≤ cap →
      fetchLoop cap q i fin = q ++ List.range' i (min (fin + 1 - i) (cap - q.length)) := by
  intro n
  induction n with
  | zero =>
      intro q i fin hn hfu hq
      rw [fetchLoop, if_neg (by omega), hn]
      simp
  | succ n ih =>
      intro q i fin hn hfu hq
      have hif : i ≤ fin := by omega
      rw [fetchLoop, if_pos hif]
      by_cases hlen : q.length < cap
      · rw [dif_pos hlen]
        have hmod : (i + 1) % u64 = i + 1 := Nat.mod_eq_of_lt (by omega)
        rw [hmod, ih (q ++ [i]) (i + 1) fin (by omega) hfu (by simp; omega)]
        rw [List.append_assoc]
        congr 1
        have hm : min (fin + 1 - i) (cap - q.length)
            = min (fin + 1 - (i + 1)) (cap - (q ++ [i]).length) + 1 := by
          simp only [List.length_append, List.length_cons, List.length_nil]
          omega
        rw [hm]
        rfl
      · rw [dif_neg hlen]
        have hz : cap - q.length = 0 := by omega
        rw [hz]
        simp

/-- Re-basing the start of a `uint64`-valued arithmetic progression modulo
`2^64` does not change the progression. -/
theorem range'_map_mod :
    ∀ (m a : Nat), (List.range' (a % u64) m).map (fun x => x % u64)
      = (List.range' a m).map (fun x => x % u64) := by
  intro m
  induction m with
  | zero => intro a; rfl
  | succ m ih =>
      intro a
      have h1 : List.range' (a % u64) (m + 1)
          = (a % u64) :: List.range' (a % u64 + 1) m := rfl
      have h2 : List.range' a (m + 1) = a :: List.range' (a + 1) m := rfl
      rw [h1, h2, List.map_cons, List.map_cons]
      congr 1
      · exact Nat.mod_mod_of_dvd a dvd_rfl
      · calc (List.range' (a % u64 + 1) m).map (fun x => x % u64)
            = (List.range' ((a % u64 + 1) % u64) m).map (fun x => x % u64) :=
              (ih (a % u64 + 1)).symm
          _ = (List.range' ((a + 1) % u64) m).map (fun x => x % u64) := by
              rw [Nat.mod_add_mod]
          _ = (List.range' (a + 1) m).map (fun x => x % u64) := ih (a + 1)

/-- When the bound is the largest `uint64`, `2^64 - 1`, the loop condition
`blockNumber <= end` is always true, the counter wraps modulo `2^64`, and
only the full channel stops the loop: it appends the `cap - q.length`
consecutive block numbers from `i` on, reduced modulo `2^64`. -/
theorem fetchLoop_wrap (cap : Nat) :
    ∀ (n : Nat) (q : List Nat) (i : Nat),
      cap - q.length = n → i < u64 → q.length ≤ cap →
      fetchLoop cap q i (u64 - 1)
        = q ++ (List.range' i (cap - q.length)).map (fun x => x % u64) := by
  intro n
  induction n with
  | zero =>
      intro q i hn hi hq
      rw [fetchLoop, if_pos (by omega), dif_neg (by omega), hn]
      simp
  | succ n ih =>
      intro q i hn hi hq
      rw [fetchLoop, if_pos (by omega), dif_pos (by omega)]
      rw [ih (q ++ [i]) ((i + 1) % u64) (by simp; omega)
        (Nat.mod_lt _ (by norm_num [u64])) (by simp; omega)]
      rw [List.append_assoc]
      congr 1
      have hm : cap - q.length = cap - (q ++ [i]).length + 1 := by
        simp only [List.length_append, List.length_cons, List.length_nil]
        omega
      rw [hm]
      have h2 : List.range' i (cap - (q ++ [i]).length + 1)
          = i :: List.range' (i + 1) (cap - (q ++ [i]).length) := rfl
      rw [h2, List.map_cons, range'_map_mod (cap - (q ++ [i]).length) (i + 1)]
      simp [Nat.mod_eq_of_lt hi]

end Driver

namespace Driver

/-- C3 counterexample: with the gap query returning the non-empty
inclusive range `[5, 5]` (`end ≥ start`) and room in the request channel,
the gap check enqueues nothing, because the code guards the fetch loop
with `end - start > 0` and so drops the one-block gap `end = start`. -/
theorem gapCheck_counterexample :
    checkForGapInUnsafeQueue 100 0 2 (fun _ => (5, 5)) 10 [] = [] ∧
    ([] : List Nat) ≠ [5] := by
  exact ⟨rfl, by decide⟩

/-- C3 amended: on a backup-sync tick the gap check queries the gap at the
expected block number `(now − Genesis.L2Time) / BlockTime` (whenever the
wall clock is at or past genesis).  When `end > start` strictly and
`end < 2^64 - 1`, it enqueues the block numbers `start, start+1, …, end`
in increasing order with non-blocking sends — stopping as soon as the
bounded channel is full and dropping the remainder; when `end ≤ start`
(including the one-block range `end = start`) nothing is enqueued; and in
the degenerate case `end = 2^64 - 1 > start` the `uint64` loop counter
wraps past `2^64 - 1`, so the loop keeps enqueuing consecutive block
numbers modulo `2^64` until the channel is full. -/
theorem gapCheck_spec (wallClock genesisTimestamp blockTime cap : Nat)
    (getGap : Nat → Nat × Nat) (q : List Nat) (start fin : Nat)
    (hw : genesisTimestamp ≤ wallClock) (hwu : wallClock < u64)
    (hg : getGap ((wallClock - genesisTimestamp) / blockTime) = (start, fin))
    (hsu : start < u64) (hfu : fin < u64) (hq : q.length ≤ cap) :
    expectedL2Block wallClock genesisTimestamp blockTime
      = (wallClock - genesisTimestamp) / blockTime ∧
    (start < fin → fin + 1 < u64 →
      checkForGapInUnsafeQueue wallClock genesisTimestamp blockTime getGap cap q
        = q ++ List.range' start (min (fin + 1 - start) (cap - q.length))) ∧
    (fin ≤ start →
      checkForGapInUnsafeQueue wallClock genesisTimestamp blockTime getGap cap q = q) ∧
    (start < fin → fin + 1 = u64 →
      checkForGapInUnsafeQueue wallClock genesisTimestamp blockTime getGap cap q
        = q ++ (List.range' start (cap - q.length)).map (fun x => x % u64)) := by
  have hexp : expectedL2Block wallClock genesisTimestamp blockTime
      = (wallClock - genesisTimestamp) / blockTime := by
    unfold expectedL2Block
    rw [u64sub_of_le wallClock genesisTimestamp hw hwu]
  refine ⟨hexp, ?_, ?_, ?_⟩
  · intro hlt hfu1
    have hsize : u64sub fin start = fin - start := u64sub_of_le fin start (le_of_lt hlt) hfu
    simp only [checkForGapInUnsafeQueue, hexp, hg, hsize]
    rw [if_pos (by omega)]
    exact fetchLoop_eq cap (fin + 1 - start) q start fin rfl hfu1 hq
  · intro hle
    rcases Nat.lt_or_ge fin start with hlt | hge
    · have hsize : u64sub fin start = fin + u64 - start := u64sub_wrap fin start hlt hsu
      simp only [checkForGapInUnsafeQueue, hexp, hg, hsize]
      rw [if_pos (by omega), fetchLoop, if_neg (by omega)]
    · have heq : fin = start := le_antisymm hle hge
      subst heq
      have hsize : u64sub fin fin = 0 := by
        rw [u64sub_of_le fin fin le_rfl hfu]
        omega
      simp only [checkForGapInUnsafeQueue, hexp, hg, hsize]
      simp
  · intro hlt hfu1
    have hsize : u64sub fin start = fin - start := u64sub_of_le fin start (le_of_lt hlt) hfu
    simp only [checkForGapInUnsafeQueue, hexp, hg, hsize]
    rw [if_pos (by omega)]
    have hfin : fin = u64 - 1 := by omega
    rw [hfin]
    exact fetchLoop_wrap cap (cap - q.length) q start rfl hsu hq

/-- C3 witness: the scenario of the spec's S5 seed — genesis time 0, block
time 2, wall clock 20, gap `(4, 10)`, empty channel of capacity 8 —
enqueues exactly 4..10 in order; and with the gap `(2^64-3, 2^64-1)` and
capacity 4 the counter wraps and the channel fills with
`2^64-3, 2^64-2, 2^64-1, 0`. -/
theorem gapCheck_spec_witness :
    checkForGapInUnsafeQueue 20 0 2 (fun e => (4, e)) 8 [] = [4, 5, 6, 7, 8, 9, 10] ∧
    checkForGapInUnsafeQueue 20 0 2 (fun _ => (u64 - 3, u64 - 1)) 4 []
      = [u64 - 3, u64 - 2, u64 - 1, 0] :=
  ⟨(gapCheck_spec 20 0 2 8 (fun e => (4, e)) [] 4 10 (by norm_num)
      (by norm_num [u64]) rfl (by norm_num [u64]) (by norm_num [u64])
      (by norm_num)).2.1 (by norm_num) (by norm_num [u64]),
   (gapCheck_spec 20 0 2 4 (fun _ => (u64 - 3, u64 - 1)) [] (u64 - 3) (u64 - 1)
      (by norm_num) (by norm_num [u64]) rfl (by norm_num [u64]) (by norm_num [u64])
      (by norm_num)).2.2.2 (by norm_num [u64]) (by norm_num [u64])⟩

/-- C10: `checkForGapInUnsafeQueue` computes the expected L2 block number
with wrapping `uint64` arithmetic: for a wall clock strictly earlier than
the genesis timestamp the subtraction wraps modulo `2^64`, so the expected
number equals `(wallClock + 2^64 − genesisTimestamp) / blockTime` — an
enormous value, nonzero whenever the block time does not exceed
`2^64 − genesisTimestamp` — rather than zero or an error; likewise the gap
size `end − start` wraps modulo `2^64` whenever `end < start`. -/
theorem gapCheck_wrapping (wallClock genesisTimestamp blockTime : Nat)
    (h1 : wallClock < genesisTimestamp) (h2 : genesisTimestamp < u64)
    (h3 : 0 < blockTime) :
    expectedL2Block wallClock genesisTimestamp blockTime
      = (wallClock + u64 - genesisTimestamp) / blockTime ∧
    (blockTime ≤ u64 - genesisTimestamp →
      expectedL2Block wallClock genesisTimestamp blockTime ≠ 0) ∧
    ∀ start fin : Nat, fin < start → start < u64 →
      u64sub fin start = fin + u64 - start := by
  have heq : expectedL2Block wallClock genesisTimestamp blockTime
      = (wallClock + u64 - genesisTimestamp) / blockTime := by
    unfold expectedL2Block
    rw [u64sub_wrap wallClock genesisTimestamp h1 h2]
  refine ⟨heq, ?_, fun s f hfs hsu => u64sub_wrap f s hfs hsu⟩
  intro hbt
  rw [heq]
  have hle : blockTime ≤ wallClock + u64 - genesisTimestamp := by omega
  have hpos := Nat.div_pos hle h3
  omega

/-- C10 witness: one second before a genesis at time 10 with block time 2,
the expected block number is the wrapped quotient and is nonzero. -/
theorem gapCheck_wrapping_witness :
    expectedL2Block 9 10 2 = (9 + u64 - 10) / 2 ∧ expectedL2Block 9 10 2 ≠ 0 :=
  ⟨(gapCheck_wrapping 9 10 2 (by norm_num) (by norm_num [u64]) (by norm_num)).1,
   (gapCheck_wrapping 9 10 2 (by norm_num) (by norm_num [u64]) (by norm_num)).2.1
     (by norm_num [u64])⟩

end Driver

namespace Driver

/-- C9: the validation returns a distinct identity-comparable error kind
per invalid field.  For every otherwise-valid configuration: a valid
configuration passes with no error; `BlockTime = 0` yields exactly
`BlockTimeZero`; a proposer window size of at most 1 yields
`InvalidProposerWindowSize`; a zero channel timeout yields
`MissingChannelTimeout`; equal genesis L1/L2 hashes yield
`GenesisHashesSame`; equal chain IDs yield `ChainIDsSame`; and
non-positive L1/L2 chain IDs yield `L1ChainIDNotPositive` and
`L2ChainIDNotPositive` respectively. -/
theorem config_check_spec (cfg : RollupConfig) (hwf : Wf cfg) :
    Check cfg = none ∧
    Check { cfg with blockTime := 0 } = some .BlockTimeZero ∧
    (∀ w, w ≤ 1 →
      Check { cfg with proposerWindowSize := w } = some .InvalidProposerWindowSize) ∧
    Check { cfg with channelTimeout := 0 } = some .MissingChannelTimeout ∧
    Check { cfg with genesis := { cfg.genesis with l2Hash := cfg.genesis.l1Hash } }
      = some .GenesisHashesSame ∧
    Check { cfg with l2ChainID := cfg.l1ChainID } = some .ChainIDsSame ∧
    (∀ a : Int, a ≤ 0 →
      Check { cfg with l1ChainID := some a } = some .L1ChainIDNotPositive) ∧
    (∀ b : Int, b ≤ 0 →
      Check { cfg with l2ChainID := some b } = some .L2ChainIDNotPositive) := by
  obtain ⟨h1, h2, h3, h4, h5, h6, h7, h8, h9, h10, h11, h12, h13, hp1, hp2, hne⟩ := hwf
  have h3' : ¬(cfg.proposerWindowSize ≤ 1) := by omega
  cases hca : cfg.l1ChainID with
  | none => rw [hca] at hp1; exact absurd hp1 (by simp [posChainID])
  | some a =>
  cases hcb : cfg.l2ChainID with
  | none => rw [hcb] at hp2; exact absurd hp2 (by simp [posChainID])
  | some b =>
  rw [hca] at hp1
  rw [hcb] at hp2
  have hpa : (0 : Int) < a := hp1
  have hpb : (0 : Int) < b := hp2
  have hab : a ≠ b := by
    rw [hca, hcb] at hne
    simpa using hne
  have ha' : ¬(a ≤ 0) := not_le.mpr hpa
  have hb' : ¬(b ≤ 0) := not_le.mpr hpb
  refine ⟨?_, ?_, ?_, ?_, ?_, ?_, ?_, ?_⟩
  · simp [Check, h1, h2, h3', h4, h5, h6, h7, h8, h9, h10, h11, h12, h13,
          hca, hcb, hab, ha', hb']
  · simp [Check]
  · intro w hwle
    simp [Check, h1, h2, hwle]
  · simp [Check, h1]
  · simp [Check, h1, h2, h3', h4]
  · simp [Check, h1, h2, h3', h4, h5, h6, h7, h8, h9, h10, h11, h12, h13, hca]
  · intro a0 ha0
    have hne0 : a0 ≠ b := ne_of_lt (lt_of_le_of_lt ha0 hpb)
    simp [Check, h1, h2, h3', h4, h5, h6, h7, h8, h9, h10, h11, h12, h13,
          hcb, ha0, hne0]
  · intro b0 hb0
    have hne0 : a ≠ b0 := ne_of_gt (lt_of_le_of_lt hb0 hpa)
    simp [Check, h1, h2, h3', h4, h5, h6, h7, h8, h9, h10, h11, h12, h13,
          hca, ha', hb0, hne0]

/-- C9 witness: the concrete valid configuration passes; zeroing its block
time yields `BlockTimeZero`; a window size of 1 yields
`InvalidProposerWindowSize`; a chain ID of 0 yields
`L1ChainIDNotPositive`. -/
theorem config_check_spec_witness :
    Check sampleConfig = none ∧
    Check { sampleConfig with blockTime := 0 } = some .BlockTimeZero ∧
    Check { sampleConfig with proposerWindowSize := 1 }
      = some .InvalidProposerWindowSize ∧
    Check { sampleConfig with l1ChainID := some 0 } = some .L1ChainIDNotPositive :=
  ⟨(config_check_spec sampleConfig (by norm_num [Wf, posChainID, sampleConfig])).1,
   (config_check_spec sampleConfig (by norm_num [Wf, posChainID, sampleConfig])).2.1,
   (config_check_spec sampleConfig (by norm_num [Wf, posChainID, sampleConfig])).2.2.1
     1 (by norm_num),
   (config_check_spec sampleConfig (by norm_num [Wf, posChainID, sampleConfig])).2.2.2.2.2.2.1
     0 (by norm_num)⟩

end Driver
